import Mathlib

/-!
Verification of the agentbox policy engine and runtime loop.

The definitions below are a shallow embedding of `src/agentbox/policy.py`
(class `Policy`) and `src/agentbox/runtime.py` (class `AgentRuntime`).
Python dictionaries become association lists, the YAML policy document
becomes a `Policy` structure, exceptions become `Except` values, and the
audit logger becomes an explicit list of events.  Machine-level details
that the claims do not touch (timestamps, JSON serialisation of the log
file) are not modelled.
-/

namespace Agentbox

/-- `PolicyDecision` from policy.py: an allow/deny verdict with a reason. -/
structure PolicyDecision where
  allowed : Bool
  reason : String
  deriving DecidableEq, Repr

/-- The per-tool rule set stored under one key of the policy document's
`tools` mapping.  In the source it is a plain dict read with
`.get("allow_domains", [])`, `.get("allow_methods", [])` and
`.get("allow_paths", [])`; the defaults of those `get` calls are the
defaults of these fields. -/
structure ToolPolicy where
  allow_domains : List String := []
  allow_methods : List String := []
  allow_paths : List String := []
  deriving DecidableEq, Repr

/-- The parsed policy document (`Policy.__init__` in policy.py).
`tools` models the `tools` dict as an association list with distinct keys
(first binding wins, as in a dict).  `max_tool_calls` models
`limits.get("max_tool_calls", float('inf'))`: `none` is the unbounded
default `float('inf')`, `some k` a configured integer limit.
`max_runtime_seconds` is modelled at the runtime loop by an oracle for the
comparison `elapsed > max_runtime_seconds` (wall-clock time is not
embeddable), see `runLoop`. -/
structure Policy where
  tools : List (String × ToolPolicy) := []
  max_tool_calls : Option Nat := none
  deriving DecidableEq, Repr

/-- Argument mapping of a tool invocation.  The claims only involve
string-valued arguments, so `Dict[str, Any]` is embedded as an association
list from names to strings. -/
abbrev Args := List (String × String)

/-- Python `args.get(key, default)` on an argument mapping. -/
def getArg (args : Args) (key dflt : String) : String :=
  match args.find? (fun kv => kv.1 == key) with
  | some kv => kv.2
  | none => dflt

/-- Python repr of a list of strings, as produced by an f-string holding a
`List[str]` value (used in denial reasons such as
`f"... not in allow_domains: {allow_domains}"`). -/
def pyStrRepr (s : String) : String := "'" ++ s ++ "'"

/-- Python repr of a `List[str]`. -/
def pyListRepr (l : List String) : String :=
  "[" ++ String.intercalate ", " (l.map pyStrRepr) ++ "]"

/-- Python `str.upper()` (Lean's `String.toUpper`, restated character by
character so that the kernel can evaluate it). -/
def strUpper (s : String) : String := String.mk (s.toList.map Char.toUpper)

/-- Python `str.startswith` / Lean `String.startsWith`, over character
lists so that the kernel can evaluate it. -/
def strStartsWith (s pre : String) : Bool := pre.toList.isPrefixOf s.toList

/-- Python `str.endswith` / Lean `String.endsWith`, over character lists so
that the kernel can evaluate it. -/
def strEndsWith (s suf : String) : Bool := suf.toList.isSuffixOf s.toList

/-- Helper for `splitOnChar`: accumulates the current piece reversed. -/
def splitOnCharAux (sep : Char) : List Char → List Char → List String
  | [], acc => [String.mk acc.reverse]
  | c :: cs, acc =>
    if c == sep then String.mk acc.reverse :: splitOnCharAux sep cs []
    else splitOnCharAux sep cs (c :: acc)

/-- Python `str.split(sep)` for a one-character separator (also the
behaviour of Lean's `String.split` on the predicate `(· == sep)`): empty
pieces are kept, so splitting the empty string yields `[""]`. -/
def splitOnChar (s : String) (sep : Char) : List String :=
  splitOnCharAux sep s.toList []

/-- Characters CPython's `urllib.parse` accepts inside a URL scheme. -/
def isSchemeChar (c : Char) : Bool :=
  c.isAlpha || c.isDigit || c == '+' || c == '-' || c == '.'

/-- First step of CPython `urllib.parse.urlsplit`: if the URL has a valid
`scheme:` prefix (a colon at a positive index with only scheme characters
before it), drop it. -/
def restAfterScheme (cs : List Char) : List Char :=
  match cs.findIdx? (fun c => c == ':') with
  | some i => if 0 < i ∧ (cs.take i).all isSchemeChar then cs.drop (i + 1) else cs
  | none => cs

/-- CPython `urllib.parse.urlsplit`, restricted to the one field policy.py
reads: the netloc.  After scheme removal, a netloc is present only when the
rest starts with `//`; it extends to the next `/`, `?` or `#`.  A netloc
with an unmatched square bracket raises `ValueError("Invalid IPv6 URL")`,
modelled as the `error` constructor (control-character stripping, which no
claim touches, is not modelled). -/
def urlsplitNetloc (url : String) : Except String String :=
  let cs := restAfterScheme url.toList
  match cs with
  | '/' :: '/' :: rest =>
    let netloc := rest.takeWhile (fun c => !(c == '/' || c == '?' || c == '#'))
    if (netloc.contains '[' && !netloc.contains ']') ||
        (netloc.contains ']' && !netloc.contains '[') then
      Except.error "Invalid IPv6 URL"
    else
      Except.ok (String.mk netloc)
  | _ => Except.ok ""

/-- Whether URL parsing succeeds, i.e. the `try` block of
`Policy._validate_web_request` does not take its `except` branch. -/
def urlParseOk (url : String) : Bool :=
  match urlsplitNetloc url with
  | Except.ok _ => true
  | Except.error _ => false

/-- `parsed_url.netloc.split(':')[0]` from policy.py: the netloc up to the
first colon (removing an explicit port). -/
def netlocDomain (netloc : String) : String :=
  String.mk (netloc.toList.takeWhile (fun c => !(c == ':')))

/-- `Policy._domain_matches` from policy.py: equality or dot-separated
subdomain (`wikipedia.org` matches `en.wikipedia.org`). -/
def domain_matches (domain pattern : String) : Bool :=
  domain == pattern || strEndsWith domain ("." ++ pattern)

/-- `Policy._validate_web_request` from policy.py. -/
def validate_web_request (args : Args) (tool_policy : ToolPolicy) : PolicyDecision :=
  let url := getArg args "url" ""
  let method := strUpper (getArg args "method" "GET")
  match urlsplitNetloc url with
  | Except.error _ => ⟨false, s!"Invalid URL format: {url}"⟩
  | Except.ok netloc =>
    let domain := netlocDomain netloc
    let allow_domains := tool_policy.allow_domains
    let allow_methods := tool_policy.allow_methods
    let domainsRepr := pyListRepr allow_domains
    let methodsRepr := pyListRepr allow_methods
    if !allow_domains.contains "*" &&
        !allow_domains.any (fun allowed => domain_matches domain allowed) then
      ⟨false, s!"Domain '{domain}' not in allow_domains: {domainsRepr}"⟩
    else if !allow_methods.contains method then
      ⟨false, s!"HTTP method '{method}' not in allow_methods: {methodsRepr}"⟩
    else
      ⟨true, s!"Allowed: domain '{domain}' and method '{method}'"⟩

/-- One folding step list of CPython `posixpath.normpath`: drop empty and
`.` components, let `..` cancel a previous component where the original
loop pops it, keep it otherwise. -/
def normpathComps (comps : List String) (initial_slashes : Nat) : List String :=
  comps.foldl
    (fun acc comp =>
      if comp == "" || comp == "." then acc
      else if comp != ".." || (initial_slashes == 0 && acc.isEmpty) ||
          acc.getLast? == some ".." then acc ++ [comp]
      else if !acc.isEmpty then acc.dropLast
      else acc)
    []

/-- CPython `posixpath.normpath` (what `os.path.normpath` is on POSIX):
collapse separators and `.` segments, resolve `..` where possible, keep the
POSIX special case of exactly two leading slashes. -/
def normpath (path : String) : String :=
  if path == "" then "."
  else
    let initial_slashes : Nat :=
      if strStartsWith path "//" && !strStartsWith path "///" then 2
      else if strStartsWith path "/" then 1
      else 0
    let comps := splitOnChar path '/'
    let new_comps := normpathComps comps initial_slashes
    let joined := String.intercalate "/" new_comps
    let res :=
      (if initial_slashes == 2 then "//" else if initial_slashes == 1 then "/" else "") ++ joined
    if res == "" then "." else res

/-- Shell-style glob matching by explicit recursion, fuelled so that it is
structural and kernel-reducible.  `*` matches any run of characters
(including `/`, exactly as `fnmatch` translates it to the regex `.*`),
`?` any single character; other characters match themselves. -/
def globMatchAux : Nat → List Char → List Char → Bool
  | 0, _, _ => false
  | _ + 1, [], s => s.isEmpty
  | fuel + 1, '*' :: ps, s =>
    globMatchAux fuel ps s ||
      (match s with
       | [] => false
       | _ :: cs => globMatchAux fuel ('*' :: ps) cs)
  | fuel + 1, '?' :: ps, s =>
    (match s with
     | [] => false
     | _ :: cs => globMatchAux fuel ps cs)
  | fuel + 1, p :: ps, s =>
    (match s with
     | [] => false
     | c :: cs => p == c && globMatchAux fuel ps cs)

/-- CPython `fnmatch.fnmatch(name, pat)` on POSIX (where `normcase` is the
identity): full-string glob matching in which `*` matches across `/`.
Bracket character classes are not modelled; no pattern in the policy
claims contains one.  The fuel `pat.length + name.length + 1` dominates the
recursion depth, so the fuelled matcher computes the usual glob relation. -/
def fnmatch (name pat : String) : Bool :=
  globMatchAux (pat.length + name.length + 1) pat.toList name.toList

/-- `pathlib.PurePath.parts` of a POSIX path string: a leading `/` part for
an absolute path, then the non-empty, non-`.` components. -/
def pathParts (p : String) : List String :=
  let comps := (splitOnChar p '/').filter (fun c => c != "" && c != ".")
  if strStartsWith p "/" then "/" :: comps else comps

/-- `pathlib.PurePath(path).match(pattern)` on POSIX, as called from
`Policy._validate_read_file`: per-component glob matching, anchored on the
whole path for an absolute pattern and on a suffix of the components for a
relative one.  An empty pattern raises `ValueError` in pathlib; the caller
catches every exception and treats it as no match, so it is `false` here. -/
def path_match (path pattern : String) : Bool :=
  let pat_parts := pathParts pattern
  if pat_parts.isEmpty then false
  else
    let parts := pathParts path
    if strStartsWith pattern "/" then
      pat_parts.length == parts.length &&
        (List.zip parts pat_parts).all (fun pp => fnmatch pp.1 pp.2)
    else
      decide (pat_parts.length ≤ parts.length) &&
        (List.zip parts.reverse pat_parts.reverse).all (fun pp => fnmatch pp.1 pp.2)

/-- `Policy._validate_read_file` from policy.py. -/
def validate_read_file (args : Args) (tool_policy : ToolPolicy) : PolicyDecision :=
  let path := getArg args "path" ""
  if path == "" then ⟨false, "No path provided"⟩
  else
    let normalized_path := normpath path
    let allow_paths := tool_policy.allow_paths
    if allow_paths.contains "./**" || allow_paths.contains "**" then
      ⟨true, "Allowed: wildcard pattern"⟩
    else
      match allow_paths.find? (fun pattern =>
          let normalized_pattern := normpath pattern
          fnmatch normalized_path normalized_pattern ||
            path_match normalized_path normalized_pattern) with
      | some pattern => ⟨true, s!"Allowed: path '{path}' matches '{pattern}'"⟩
      | none =>
        let listing := pyListRepr allow_paths
        ⟨false, s!"Path '{path}' not in allow_paths: {listing}"⟩

/-- `tool_name in self.tools` / `self.tools[tool_name]` from policy.py. -/
def Policy.lookupTool (p : Policy) (tool_name : String) : Option ToolPolicy :=
  (p.tools.find? (fun kv => kv.1 == tool_name)).map (fun kv => kv.2)

/-- `Policy.validate` from policy.py: default deny for unknown tools, then
dispatch on the tool name to the rule-kind evaluator. -/
def Policy.validate (p : Policy) (tool_name : String) (tool_args : Args) : PolicyDecision :=
  match p.lookupTool tool_name with
  | none => ⟨false, s!"Tool '{tool_name}' is not in the policy (default deny)"⟩
  | some tool_policy =>
    if tool_name == "web_request" then validate_web_request tool_args tool_policy
    else if tool_name == "read_file" then validate_read_file tool_args tool_policy
    else ⟨false, s!"No validation logic for tool '{tool_name}'"⟩

/-! Runtime loop embedding: `src/agentbox/runtime.py` (class `AgentRuntime`).

The model client is scripted as the list of turns it will return, the
audit logger as a list of events; `time.time()` is not embeddable, so the
comparison `elapsed > self.policy.max_runtime_seconds` performed at the
start of iteration `i` is an oracle `time_over i` passed to the loop.  A
tool's `execute` is a function into `Except` (the `error` case is the
Python exception caught by `_execute_tool`). -/

/-- `ToolInvocation` from model/base.py (the correlation id is modelled as
a plain string; `None` never reaches the claims). -/
structure ToolInvocation where
  name : String
  args : Args
  call_id : String
  deriving DecidableEq, Repr

/-- One scripted return value of `model_client.chat`: text content
(`none` when the model returned only tool calls) and the proposed tool
invocations. -/
abbrev ModelTurn := Option String × List ToolInvocation

/-- The events `AuditLogger` (logger.py) can receive from the runtime:
`log_runtime_error`, `log_tool_validation` and `log_tool_result`
(timestamps and JSONL serialisation are not modelled). -/
inductive LogEvent where
  | runtime_error (error : String)
  | tool_validation (tool_name : String) (args : Args) (allowed : Bool) (reason : String)
  | tool_result (tool_name : String) (success : Bool) (info : String)
  deriving DecidableEq, Repr

/-- Whether an event is a `log_runtime_error` event — the kind of audit
event `AgentRuntime.run` emits for terminal conditions. -/
def LogEvent.isRuntimeError : LogEvent → Bool
  | .runtime_error _ => true
  | _ => false

/-- A conversation message, restricted to what `AgentRuntime.run` appends:
the incoming messages (opaque to the loop), the assistant turn carrying
the proposed invocations, and one tool-result entry per invocation. -/
inductive Msg where
  | user (content : String)
  | assistantToolCalls (content : Option String) (tool_calls : List ToolInvocation)
  | toolResult (call_id : String) (tool_name : String) (content : String)
  deriving DecidableEq, Repr

/-- A registered tool's `execute`: `error` models a raised exception,
`ok` the result already converted to a string (`_tool_success_result`
stringifies it). -/
abbrev ToolFn := Args → Except String String

/-- `AgentRuntime._tool_error_result`. -/
def tool_error_result (call_id tool_name error : String) : Msg :=
  Msg.toolResult call_id tool_name ("\x7b\"error\": \"" ++ error ++ "\"\x7d")

/-- `AgentRuntime._tool_success_result` (stringification already done). -/
def tool_success_result (call_id tool_name content : String) : Msg :=
  Msg.toolResult call_id tool_name content

/-- The `result[:200]` truncation `AuditLogger.log_tool_result` applies to
a successful result before logging it. -/
def truncateResult (r : String) : String := String.mk (r.toList.take 200)

/-- `AgentRuntime._execute_tool`: look the tool up in the registry,
consult the policy engine, log the validation verdict, and either
synthesize a policy-denial result, or execute the tool and log its
success or failure.  Returns the tool-result message and the audit events
emitted (empty when no logger is attached). -/
def execute_tool (tools : List (String × ToolFn)) (policy : Policy) (hasLogger : Bool)
    (tc : ToolInvocation) : Msg × List LogEvent :=
  match tools.find? (fun kv => kv.1 == tc.name) with
  | none =>
    let error := s!"Tool '{tc.name}' not found"
    (tool_error_result tc.call_id tc.name error,
      if hasLogger then [LogEvent.tool_result tc.name false error] else [])
  | some kv =>
    let decision := policy.validate tc.name tc.args
    let vlog :=
      if hasLogger then [LogEvent.tool_validation tc.name tc.args decision.allowed decision.reason]
      else []
    if !decision.allowed then
      (tool_error_result tc.call_id tc.name ("Policy denied: " ++ decision.reason), vlog)
    else
      match kv.2 tc.args with
      | Except.ok r =>
        (tool_success_result tc.call_id tc.name r,
          vlog ++ if hasLogger then [LogEvent.tool_result tc.name true (truncateResult r)] else [])
      | Except.error e =>
        (tool_error_result tc.call_id tc.name e,
          vlog ++ if hasLogger then [LogEvent.tool_result tc.name false e] else [])

/-- The per-turn loop of `AgentRuntime.run` (lines 77-81): for each
proposed invocation in order, `_execute_tool` it, collect its result, and
increment `tool_call_count` — the increment is unconditional in the
source, one per dispatched invocation.  Returns the result messages, the
new counter value and the audit events. -/
def process_tool_calls (tools : List (String × ToolFn)) (policy : Policy) (hasLogger : Bool) :
    List ToolInvocation → Nat → List Msg × Nat × List LogEvent
  | [], count => ([], count, [])
  | tc :: rest, count =>
    let r := execute_tool tools policy hasLogger tc
    let restOut := process_tool_calls tools policy hasLogger rest (count + 1)
    (r.1 :: restOut.1, restOut.2.1, r.2 ++ restOut.2.2)

/-- Mutable runtime state of one `run` invocation, plus the audit-event
trace and a ghost counter of how many model-turn requests were issued. -/
structure RunState where
  messages : List Msg
  tool_call_count : Nat
  log : List LogEvent
  model_calls : Nat
  deriving DecidableEq, Repr

/-- The exceptions that can leave `AgentRuntime.run`: `BudgetExceededError`,
`MaxIterationsError`, and any other exception (here only a model-client
failure, which the scripted client raises when its script is exhausted). -/
inductive RunErr where
  | budget (msg : String)
  | maxIterations (msg : String)
  | clientError (msg : String)
  deriving DecidableEq, Repr

deriving instance DecidableEq for Except

/-- `if self.logger: self.logger.log_runtime_error(msg)`. -/
def logRuntimeError (hasLogger : Bool) (st : RunState) (msg : String) : RunState :=
  { st with log := st.log ++ if hasLogger then [LogEvent.runtime_error msg] else [] }

/-- The guard `tool_call_count >= self.max_tool_calls`: always false for
the unbounded default `float('inf')`. -/
def callLimitHit (policy : Policy) (count : Nat) : Bool :=
  match policy.max_tool_calls with
  | some limit => decide (limit ≤ count)
  | none => false

/-- The string `self.max_tool_calls` formats to in the budget message. -/
def maxToolCallsStr (policy : Policy) : String :=
  match policy.max_tool_calls with
  | some limit => toString limit
  | none => "inf"

/-- The runtime-budget message.  Its elapsed-seconds figure comes from
`time.time()` and is not representable, so the message is the fixed part
of its template. -/
def runtimeLimitMsg : String := "Runtime limit exceeded"

/-- The message of `f"Tool call limit exceeded: {tool_call_count} >= {self.max_tool_calls}"`. -/
def toolCallLimitMsg (policy : Policy) (count : Nat) : String :=
  let c := toString count
  let m := maxToolCallsStr policy
  s!"Tool call limit exceeded: {c} >= {m}"

/-- The state after one full iteration body that dispatched `tool_calls`:
the model-call ghost counter advanced, the assistant turn and the tool
results appended to the conversation, the call counter advanced once per
dispatched invocation, and the audit events appended. -/
def nextState (tools : List (String × ToolFn)) (policy : Policy) (hasLogger : Bool)
    (st : RunState) (content : Option String) (tool_calls : List ToolInvocation) : RunState :=
  let st1 := { st with model_calls := st.model_calls + 1 }
  let out := process_tool_calls tools policy hasLogger tool_calls st1.tool_call_count
  { st1 with
    messages := (st1.messages ++ [Msg.assistantToolCalls content tool_calls]) ++ out.1,
    tool_call_count := out.2.1,
    log := st1.log ++ out.2.2 }

/-- The `for iteration in range(max_iterations)` loop of
`AgentRuntime.run`, by recursion on the remaining iterations: check the
time budget (oracle `time_over`, applied to the iteration index), then the
call budget, then request a model turn, and either finish, or dispatch the
proposed invocations and continue.  The exception raised when the
scripted turns run out models a model-client failure.  The elapsed-seconds
figure interpolated into the runtime-budget message is not representable,
so that message is the fixed string of its template. -/
def runLoop (tools : List (String × ToolFn)) (policy : Policy) (hasLogger : Bool)
    (time_over : Nat → Bool) (max_iterations : Nat) :
    Nat → List ModelTurn → RunState → Except RunErr String × RunState
  | 0, _, st =>
    let n := toString max_iterations
    (Except.error (RunErr.maxIterations s!"Max iterations ({n}) reached without completion"), st)
  | fuel + 1, turns, st =>
    let iteration := max_iterations - (fuel + 1)
    if time_over iteration then
      (Except.error (RunErr.budget runtimeLimitMsg), logRuntimeError hasLogger st runtimeLimitMsg)
    else if callLimitHit policy st.tool_call_count then
      let msg := toolCallLimitMsg policy st.tool_call_count
      (Except.error (RunErr.budget msg), logRuntimeError hasLogger st msg)
    else
      match turns with
      | [] =>
        (Except.error (RunErr.clientError "model client request failed"),
          { st with model_calls := st.model_calls + 1 })
      | (content, tool_calls) :: restTurns =>
        if tool_calls.isEmpty then
          (Except.ok (content.getD ""), { st with model_calls := st.model_calls + 1 })
        else
          runLoop tools policy hasLogger time_over max_iterations fuel restTurns
            (nextState tools policy hasLogger st content tool_calls)

/-- The `except Exception as e` handler at the bottom of
`AgentRuntime.run`: it audits any exception that is neither
`BudgetExceededError` nor `MaxIterationsError` (those two are audited — or
not — where they are raised) and re-raises. -/
def handleRunExcept (hasLogger : Bool) (r : Except RunErr String × RunState) :
    Except RunErr String × RunState :=
  match r.1 with
  | Except.error (RunErr.clientError msg) => (r.1, logRuntimeError hasLogger r.2 msg)
  | _ => r

/-- `AgentRuntime.run`: the loop above wrapped in the
`try ... except Exception` block of the source. -/
def AgentRuntime.run (tools : List (String × ToolFn)) (policy : Policy) (hasLogger : Bool)
    (time_over : Nat → Bool) (turns : List ModelTurn) (messages : List Msg)
    (max_iterations : Nat) : Except RunErr String × RunState :=
  let init : RunState := ⟨messages, 0, [], 0⟩
  handleRunExcept hasLogger
    (runLoop tools policy hasLogger time_over max_iterations max_iterations turns init)

/-! ## Shared fixtures and helper lemmas -/

/-- A tool registry holding a web_request tool whose execution succeeds. -/
def demoTools : List (String × ToolFn) := [("web_request", fun _ => Except.ok "response")]

/-- A policy document with no tool rules: every tool is denied. -/
def emptyPolicy : Policy := ⟨[], none⟩

/-- A proposed web_request invocation. -/
def demoInvocation : ToolInvocation := ⟨"web_request", [("url", "https://x.y/")], "call_1"⟩

/-- Dispatch lemma: when `read_file` has an entry in the policy document,
`validate` hands its arguments to `_validate_read_file`. -/
theorem validate_dispatch_read_file (p : Policy) (tool_args : Args) (tp : ToolPolicy)
    (hl : p.lookupTool "read_file" = some tp) :
    p.validate "read_file" tool_args = validate_read_file tool_args tp := by
  unfold Policy.validate
  rw [hl]
  rfl

/-- Dispatch lemma: when `web_request` has an entry in the policy document,
`validate` hands its arguments to `_validate_web_request`. -/
theorem validate_dispatch_web_request (p : Policy) (tool_args : Args) (tp : ToolPolicy)
    (hl : p.lookupTool "web_request" = some tp) :
    p.validate "web_request" tool_args = validate_web_request tool_args tp := by
  unfold Policy.validate
  rw [hl]
  rfl

/-- When the loop's result is a budget error, the exception handler of
`run` passes it and the state through unchanged. -/
theorem handleRunExcept_budget (hasLogger : Bool) (r : Except RunErr String × RunState)
    (msg : String) (hr : r.1 = Except.error (RunErr.budget msg)) :
    handleRunExcept hasLogger r = r := by
  unfold handleRunExcept
  rw [hr]

/-- Conversely, a budget error observed after the exception handler was
already the loop's own result: the handler never produces one. -/
theorem handleRunExcept_fst_budget (hasLogger : Bool) (r : Except RunErr String × RunState)
    (msg : String) (h : (handleRunExcept hasLogger r).1 = Except.error (RunErr.budget msg)) :
    r.1 = Except.error (RunErr.budget msg) := by
  unfold handleRunExcept at h
  cases hr : r.1 with
  | ok c => rw [hr] at h; simp at h; exact hr ▸ h
  | error e =>
    cases e with
    | budget m => rw [hr] at h; simp at h; exact hr ▸ h
    | maxIterations m => rw [hr] at h; simp at h; exact hr ▸ h
    | clientError m => rw [hr] at h; simp at h

/-! ## Claims -/

/-- C1: for every policy document and every tool name that has no entry in
its `tools` mapping, `Policy.validate` denies — `allowed = false` with a
reason naming the tool and stating it is not in the policy — whatever the
argument mapping is. -/
theorem validate_default_deny (p : Policy) (tool_name : String) (tool_args : Args)
    (h : p.lookupTool tool_name = none) :
    p.validate tool_name tool_args =
      ⟨false, "Tool '" ++ tool_name ++ "' is not in the policy (default deny)"⟩ := by
  unfold Policy.validate
  rw [h]
  rfl

/-- Witness for `validate_default_deny`: a concrete policy that only knows
`read_file` denies the tool `bash`. -/
theorem validate_default_deny_witness :
    Policy.validate ⟨[("read_file", ⟨[], [], ["**"]⟩)], none⟩ "bash" [("cmd", "ls")] =
      ⟨false, "Tool 'bash' is not in the policy (default deny)"⟩ :=
  validate_default_deny _ _ _ rfl

/-- C2 counterexample: the loop body of `AgentRuntime.run` increments
`tool_call_count` once per dispatched invocation unconditionally (line 81
of runtime.py), so a policy-denied invocation does increment the counter.
Here the policy denies the one proposed `web_request` call (the tool is
not in the policy document), the tool is never executed, and the counter
nevertheless ends at 1, not 0 as the claim requires. -/
theorem denied_call_increments_counter :
    (emptyPolicy.validate "web_request" [("url", "https://x.y/")]).allowed = false ∧
    (AgentRuntime.run demoTools emptyPolicy false (fun _ => false)
        [(none, [demoInvocation])] [] 1).2.tool_call_count = 1 :=
  ⟨by decide, by decide⟩

/-- C2 amended: every invocation the loop dispatches increments
`toolCallCount` by exactly one — denied, failed and successful invocations
alike — so the counter (and hence the `maxToolCalls` budget) counts all
dispatched calls, not only the actually executed ones. -/
theorem tool_call_count_counts_all_dispatched (tools : List (String × ToolFn)) (policy : Policy)
    (hasLogger : Bool) (tcs : List ToolInvocation) (count : Nat) :
    (process_tool_calls tools policy hasLogger tcs count).2.1 = count + tcs.length := by
  induction tcs generalizing count with
  | nil => simp [process_tool_calls]
  | cons tc rest ih =>
    simp only [process_tool_calls, ih, List.length_cons]
    omega

/-- Unfolding lemma for one iteration of `runLoop` (definitional). -/
theorem runLoop_succ (tools : List (String × ToolFn)) (policy : Policy) (hasLogger : Bool)
    (time_over : Nat → Bool) (max_iterations fuel : Nat) (turns : List ModelTurn)
    (st : RunState) :
    runLoop tools policy hasLogger time_over max_iterations (fuel + 1) turns st =
      (if time_over (max_iterations - (fuel + 1)) then
        (Except.error (RunErr.budget runtimeLimitMsg),
          logRuntimeError hasLogger st runtimeLimitMsg)
      else if callLimitHit policy st.tool_call_count then
        (Except.error (RunErr.budget (toolCallLimitMsg policy st.tool_call_count)),
          logRuntimeError hasLogger st (toolCallLimitMsg policy st.tool_call_count))
      else
        match turns with
        | [] =>
          (Except.error (RunErr.clientError "model client request failed"),
            { st with model_calls := st.model_calls + 1 })
        | (content, tool_calls) :: restTurns =>
          if tool_calls.isEmpty then
            (Except.ok (content.getD ""), { st with model_calls := st.model_calls + 1 })
          else
            runLoop tools policy hasLogger time_over max_iterations fuel restTurns
              (nextState tools policy hasLogger st content tool_calls)) := rfl

/-- When the loop (with a logger attached) finishes with a
`BudgetExceededError`, the error's message was logged via
`log_runtime_error` before the exception was raised. -/
theorem runLoop_budget_logged (tools : List (String × ToolFn)) (policy : Policy)
    (time_over : Nat → Bool) (max_iterations : Nat) :
    ∀ (fuel : Nat) (turns : List ModelTurn) (st : RunState) (msg : String),
      (runLoop tools policy true time_over max_iterations fuel turns st).1 =
        Except.error (RunErr.budget msg) →
      LogEvent.runtime_error msg ∈
        (runLoop tools policy true time_over max_iterations fuel turns st).2.log := by
  intro fuel
  induction fuel with
  | zero =>
    intro turns st msg h
    simp [runLoop] at h
  | succ fuel ih =>
    intro turns st msg h
    rw [runLoop_succ] at h ⊢
    by_cases ht : time_over (max_iterations - (fuel + 1)) = true
    · rw [if_pos ht] at h ⊢
      obtain rfl : runtimeLimitMsg = msg := by simpa using h
      simp [logRuntimeError]
    · rw [if_neg ht] at h ⊢
      by_cases hc : callLimitHit policy st.tool_call_count = true
      · rw [if_pos hc] at h ⊢
        obtain rfl : toolCallLimitMsg policy st.tool_call_count = msg := by simpa using h
        simp [logRuntimeError]
      · rw [if_neg hc] at h ⊢
        cases turns with
        | nil => simp at h
        | cons turn restTurns =>
          obtain ⟨content, tool_calls⟩ := turn
          simp only at h ⊢
          by_cases he : tool_calls.isEmpty = true
          · rw [if_pos he] at h
            simp at h
          · rw [if_neg he] at h ⊢
            exact ih restTurns _ msg h

/-- C3 counterexample: a run that terminates with the
`MaxIterationsError` terminal condition, with an audit sink attached,
records no `runtime_error` audit event at all — the condition propagates
unaudited (runtime.py raises it at line 93 without logging, and the
`except` handler explicitly skips logging for it). -/
theorem max_iterations_not_audited :
    (AgentRuntime.run demoTools emptyPolicy true (fun _ => false)
        [(some "working", [demoInvocation])] [] 1).1 =
      Except.error (RunErr.maxIterations "Max iterations (1) reached without completion") ∧
    (AgentRuntime.run demoTools emptyPolicy true (fun _ => false)
        [(some "working", [demoInvocation])] [] 1).2.log.all
      (fun e => !e.isRuntimeError) = true :=
  ⟨by decide, by decide⟩

/-- C3 amended: when a run terminates with the BudgetExceeded terminal
condition and an audit sink is attached, the loop records a
`runtime_error` audit event carrying the condition's message before the
exception propagates; a MaxIterationsReached termination, by contrast,
propagates without an audit event (see the counterexample). -/
theorem budget_exceeded_audited (tools : List (String × ToolFn)) (policy : Policy)
    (time_over : Nat → Bool) (turns : List ModelTurn) (messages : List Msg)
    (max_iterations : Nat) (msg : String)
    (h : (AgentRuntime.run tools policy true time_over turns messages max_iterations).1 =
      Except.error (RunErr.budget msg)) :
    LogEvent.runtime_error msg ∈
      (AgentRuntime.run tools policy true time_over turns messages max_iterations).2.log := by
  unfold AgentRuntime.run at h ⊢
  have hr1 := handleRunExcept_fst_budget true _ msg h
  rw [handleRunExcept_budget true _ msg hr1]
  exact runLoop_budget_logged _ _ _ _ _ _ _ _ hr1

/-- Witness for `budget_exceeded_audited`: a concrete run with
`maxToolCalls = 0` terminates with BudgetExceeded and its message appears
in the audit trail. -/
theorem budget_exceeded_audited_witness :
    LogEvent.runtime_error "Tool call limit exceeded: 0 >= 0" ∈
      (AgentRuntime.run demoTools ⟨[], some 0⟩ true (fun _ => false)
          [(some "hi", [])] [] 10).2.log :=
  budget_exceeded_audited _ _ _ _ _ _ _ (by decide)

/-- The policy document of the file-path claim: `read_file` with
`allowPaths = ["/data/*.txt"]`. -/
def c4policy : Policy := ⟨[("read_file", ⟨[], [], ["/data/*.txt"]⟩)], none⟩

/-- C4 counterexample: with `allowPaths = ["/data/*.txt"]` the engine
ALLOWS the path `/data/sub/a.txt`.  The claim says it is denied because
the glob star does not cross a path-segment boundary, but the first
matcher the code tries is `fnmatch.fnmatch`, whose `*` translates to the
regex `.*` and does match across `/` (the segment-respecting
`pathlib.Path.match` is only consulted after `fnmatch` fails). -/
theorem star_pattern_matches_across_segments :
    (c4policy.validate "read_file" [("path", "/data/sub/a.txt")]).allowed = true := by decide

/-- C4 amended: with `allowPaths = ["/data/*.txt"]` the engine allows
`/data/a.txt` and also allows `/data/sub/a.txt` (fnmatch's star matches
across path-segment boundaries); and whenever `allowPaths` contains the
pattern `**`, any invocation supplying a non-empty path is allowed
unconditionally. -/
theorem read_file_glob_and_universal_wildcard :
    (c4policy.validate "read_file" [("path", "/data/a.txt")]).allowed = true ∧
    (c4policy.validate "read_file" [("path", "/data/sub/a.txt")]).allowed = true ∧
    ∀ (p : Policy) (tp : ToolPolicy) (tool_args : Args),
      p.lookupTool "read_file" = some tp →
      tp.allow_paths.contains "**" = true →
      getArg tool_args "path" "" ≠ "" →
      (p.validate "read_file" tool_args).allowed = true := by
  refine ⟨by decide, by decide, ?_⟩
  intro p tp tool_args hl hw hp
  rw [validate_dispatch_read_file p tool_args tp hl]
  simp only [validate_read_file]
  rw [if_neg (by simpa using hp), if_pos (by rw [hw, Bool.or_true])]

/-- Witness for the universal-wildcard part of
`read_file_glob_and_universal_wildcard`. -/
theorem read_file_glob_and_universal_wildcard_witness :
    (Policy.validate ⟨[("read_file", ⟨[], [], ["**"]⟩)], none⟩ "read_file"
        [("path", "/etc/passwd")]).allowed = true :=
  read_file_glob_and_universal_wildcard.2.2 _ _ _ rfl rfl (by decide)

/-- C5: a web_request invocation whose URL is malformed (URL parsing
fails, the condition under which the source's `try` block catches and
fails closed) is denied for every policy document — in particular for any
`allowDomains` (wildcard included) and any `allowMethods`.  The embedding
of `validate` is a total function, so no exception escapes it. -/
theorem malformed_url_always_denied (p : Policy) (tool_args : Args)
    (h : urlParseOk (getArg tool_args "url" "") = false) :
    (p.validate "web_request" tool_args).allowed = false := by
  cases hl : p.lookupTool "web_request" with
  | none =>
    unfold Policy.validate
    rw [hl]
  | some tp =>
    rw [validate_dispatch_web_request p tool_args tp hl]
    simp only [validate_web_request]
    unfold urlParseOk at h
    cases hu : urlsplitNetloc (getArg tool_args "url" "") with
    | error e => rfl
    | ok netloc => rw [hu] at h; simp at h

/-- Witness for `malformed_url_always_denied`: the URL `http://[` (an
invalid IPv6 netloc, on which `urlparse` raises `ValueError`) is denied
even with `allowDomains = ["*"]` and its method allowed. -/
theorem malformed_url_always_denied_witness :
    urlParseOk (getArg [("url", "http://["), ("method", "GET")] "url" "") = false ∧
    (Policy.validate ⟨[("web_request", ⟨["*"], ["GET"], []⟩)], none⟩ "web_request"
        [("url", "http://["), ("method", "GET")]).allowed = false :=
  ⟨by decide, malformed_url_always_denied _ _ (by decide)⟩

/-- C6: with `maxToolCalls = 0` and at least one permitted iteration,
`run` raises BudgetExceeded in the very first iteration and no model-turn
request is ever issued (the ghost counter of model calls stays 0),
whatever the tools, turns, logger and clock are. -/
theorem zero_call_budget_raises_before_model_call (tools : List (String × ToolFn))
    (policy : Policy) (hasLogger : Bool) (time_over : Nat → Bool) (turns : List ModelTurn)
    (messages : List Msg) (max_iterations : Nat)
    (hp : policy.max_tool_calls = some 0) (hi : 1 ≤ max_iterations) :
    (∃ msg, (AgentRuntime.run tools policy hasLogger time_over turns messages
        max_iterations).1 = Except.error (RunErr.budget msg)) ∧
    (AgentRuntime.run tools policy hasLogger time_over turns messages
        max_iterations).2.model_calls = 0 := by
  obtain ⟨k, rfl⟩ : ∃ k, max_iterations = k + 1 := ⟨max_iterations - 1, by omega⟩
  simp only [AgentRuntime.run]
  rw [runLoop_succ]
  by_cases ht : time_over ((k + 1) - (k + 1)) = true
  · rw [if_pos ht]
    rw [handleRunExcept_budget _ _ runtimeLimitMsg rfl]
    exact ⟨⟨runtimeLimitMsg, rfl⟩, rfl⟩
  · rw [if_neg ht]
    have hhit : callLimitHit policy
        (RunState.mk messages 0 [] 0).tool_call_count = true := by
      simp [callLimitHit, hp]
    rw [if_pos hhit]
    rw [handleRunExcept_budget _ _ (toolCallLimitMsg policy
      (RunState.mk messages 0 [] 0).tool_call_count) rfl]
    exact ⟨⟨_, rfl⟩, rfl⟩

/-- Witness for `zero_call_budget_raises_before_model_call`. -/
theorem zero_call_budget_raises_before_model_call_witness :
    (∃ msg, (AgentRuntime.run demoTools ⟨[], some 0⟩ true (fun _ => false)
        [(some "hi", [])] [] 10).1 = Except.error (RunErr.budget msg)) ∧
    (AgentRuntime.run demoTools ⟨[], some 0⟩ true (fun _ => false)
        [(some "hi", [])] [] 10).2.model_calls = 0 :=
  zero_call_budget_raises_before_model_call _ _ _ _ _ _ _ rfl (by omega)

/-- The policy document of the network claim: `web_request` with
`allowDomains = ["example.org"]` and `allowMethods = ["GET"]`. -/
def c7policy : Policy := ⟨[("web_request", ⟨["example.org"], ["GET"], []⟩)], none⟩

/-- C7: with `allowDomains = ["example.org"]` the engine allows a request
whose URL host is `api.example.org` (equality-or-dot-subdomain matching)
and denies one whose host is `notexample.org`; and whenever `allowDomains`
contains `"*"`, domain matching is skipped for every URL the parser
accepts — the decision degenerates to the method check alone. -/
theorem subdomain_matching_and_wildcard :
    (c7policy.validate "web_request"
        [("url", "https://api.example.org/v1"), ("method", "GET")]).allowed = true ∧
    (c7policy.validate "web_request"
        [("url", "https://notexample.org/v1"), ("method", "GET")]).allowed = false ∧
    ∀ (tool_policy : ToolPolicy) (tool_args : Args) (netloc : String),
      tool_policy.allow_domains.contains "*" = true →
      urlsplitNetloc (getArg tool_args "url" "") = Except.ok netloc →
      (validate_web_request tool_args tool_policy).allowed =
        tool_policy.allow_methods.contains (strUpper (getArg tool_args "method" "GET")) := by
  refine ⟨by decide, by decide, ?_⟩
  intro tp tool_args netloc hw hu
  simp only [validate_web_request]
  rw [hu]
  simp only [hw]
  cases hm : tp.allow_methods.contains (strUpper (getArg tool_args "method" "GET")) <;>
    simp [hm]

/-- Witness for the wildcard part of `subdomain_matching_and_wildcard`. -/
theorem subdomain_matching_and_wildcard_witness :
    (validate_web_request [("url", "https://anything.example/")]
        ⟨["*"], ["GET"], []⟩).allowed = true :=
  subdomain_matching_and_wildcard.2.2 ⟨["*"], ["GET"], []⟩ _ "anything.example" rfl rfl

/-- C8: the policy engine is deterministic and side-effect free.  The
embedding of `validate` is a pure function of the policy document, the
tool name, and the argument mapping (mirroring the source, which reads
but never writes `self`), so two evaluations at equal inputs yield equal
`PolicyDecision` values and leave the document unchanged. -/
theorem validate_deterministic_pure (p1 p2 : Policy) (n1 n2 : String) (a1 a2 : Args)
    (hp : p1 = p2) (hn : n1 = n2) (ha : a1 = a2) :
    p1.validate n1 a1 = p2.validate n2 a2 := by
  subst hp
  subst hn
  subst ha
  rfl

/-- Witness for `validate_deterministic_pure`. -/
theorem validate_deterministic_pure_witness :
    Policy.validate ⟨[("read_file", ⟨[], [], ["**"]⟩)], none⟩ "read_file" [("path", "/tmp/x")] =
      Policy.validate ⟨[("read_file", ⟨[], [], ["**"]⟩)], none⟩ "read_file" [("path", "/tmp/x")] :=
  validate_deterministic_pure _ _ _ _ _ _ rfl rfl rfl

/-- The domain half of the web_request check: URL parsing succeeded and
either `allowDomains` holds the wildcard or some entry matches the host. -/
def domain_check_ok (tool_policy : ToolPolicy) (url : String) : Bool :=
  match urlsplitNetloc url with
  | Except.error _ => false
  | Except.ok netloc =>
    tool_policy.allow_domains.contains "*" ||
      tool_policy.allow_domains.any
        (fun allowed => domain_matches (netlocDomain netloc) allowed)

/-- C9: when a web_request invocation's argument mapping has no
`method` key, `validate` treats the method as `GET`: the invocation is
allowed exactly when the URL passes the domain check and `"GET"` is a
member of `allowMethods`. -/
theorem missing_method_defaults_to_GET (p : Policy) (tp : ToolPolicy) (tool_args : Args)
    (hl : p.lookupTool "web_request" = some tp)
    (hm : tool_args.find? (fun kv => kv.1 == "method") = none) :
    (p.validate "web_request" tool_args).allowed =
      (domain_check_ok tp (getArg tool_args "url" "") &&
        tp.allow_methods.contains "GET") := by
  rw [validate_dispatch_web_request p tool_args tp hl]
  simp only [validate_web_request, domain_check_ok]
  have hGet : getArg tool_args "method" "GET" = "GET" := by
    unfold getArg
    rw [hm]
  rw [hGet, show strUpper "GET" = "GET" from rfl]
  cases hu : urlsplitNetloc (getArg tool_args "url" "") with
  | error e => simp
  | ok netloc =>
    cases hstar : tp.allow_domains.contains "*" <;>
      cases hany : tp.allow_domains.any
        (fun allowed => domain_matches (netlocDomain netloc) allowed) <;>
      cases hmem : tp.allow_methods.contains "GET" <;>
      simp [hstar, hany, hmem]

/-- Witness for `missing_method_defaults_to_GET`. -/
theorem missing_method_defaults_to_GET_witness :
    (Policy.validate ⟨[("web_request", ⟨["example.org"], ["GET"], []⟩)], none⟩ "web_request"
        [("url", "https://api.example.org/v1")]).allowed =
      (domain_check_ok ⟨["example.org"], ["GET"], []⟩ "https://api.example.org/v1" &&
        (ToolPolicy.mk ["example.org"] ["GET"] []).allow_methods.contains "GET") :=
  missing_method_defaults_to_GET _ _ _ rfl rfl

/-- C10: a read_file invocation whose `path` argument is missing or empty
is denied with the `No path provided` reason, before `allowPaths` is ever
consulted — for every rule set, including one holding the universal
wildcard `**`. -/
theorem no_path_denied_before_allow_paths (p : Policy) (tp : ToolPolicy) (tool_args : Args)
    (hl : p.lookupTool "read_file" = some tp)
    (hp : getArg tool_args "path" "" = "") :
    p.validate "read_file" tool_args = ⟨false, "No path provided"⟩ := by
  rw [validate_dispatch_read_file p tool_args tp hl]
  simp only [validate_read_file]
  rw [hp]
  rfl

/-- Witness for `no_path_denied_before_allow_paths`: the path is missing
while `allowPaths` holds `**`, and the decision is still the
`No path provided` denial. -/
theorem no_path_denied_before_allow_paths_witness :
    Policy.validate ⟨[("read_file", ⟨[], [], ["**"]⟩)], none⟩ "read_file" [] =
      ⟨false, "No path provided"⟩ :=
  no_path_denied_before_allow_paths _ _ _ rfl rfl

end Agentbox
